import Mathlib

/-!  Shallow embedding of the `dynconf` package (roy2220/dynconf): a
retry-with-backoff executor (`retry.go`) and a per-key watch state machine
(`dynconf.go`).

Modelling conventions:
 - Go `time.Duration` (int64 nanoseconds) and `float64` are idealized as exact
   rationals `ℚ`; `uint64` version indices become `Nat` (they are only
   compared for `==`/`<` and copied, never combined arithmetically).
 - `valueFactory()` followed by `Value.Unmarshal(data)` builds a fresh value
   from a payload or fails; the composite is a pure `decode : P → Except E V`
   (the fresh instance is discarded on error).
 - Consul's `KV().Get` is abstracted by its observable result (`GetResult`):
   a non-nil error, a nil kv-pair, or a pair carrying `Value` and
   `ModifyIndex`.
 - The two optional capability casts (`ValueOutdatedCallback`,
   `ValueWatchRemovedCallback`) are modelled by boolean predicates on values,
   and callback invocations are recorded as ordered events.
 - `rand.Float64()` is an arbitrary sample `u` with `0 ≤ u < 1`.
-/

namespace Dynconf

/-! ### retry.go -/

/-- The `retry` struct (`retry.go` lines 10-18).  The `sync.Once` guard is not
functional state; it only makes `normalize` run once, and `normalize` is
idempotent (proved below). -/
structure Retry where
  MaxNumberOfAttempts : Int
  MinBackoff : ℚ
  MaxBackoff : ℚ
  BackoffFactor : ℚ
  BackoffJitter : ℚ
  deriving Repr, DecidableEq

/-- `time.Millisecond` in nanoseconds, as a rational. -/
def millisecond : ℚ := 1000000

/-- `time.Second` in nanoseconds, as a rational. -/
def second : ℚ := 1000000000

/-- `retry.normalize` (`retry.go` lines 59-85): default and clamp each field,
in source order. -/
def Retry.normalize (r : Retry) : Retry :=
  let r1 := if r.MinBackoff < 1 then { r with MinBackoff := 100 * millisecond } else r
  let r2 := if r1.MaxBackoff < 1 then { r1 with MaxBackoff := 300 * second } else r1
  let r3 := if r2.MaxBackoff < r2.MinBackoff then { r2 with MaxBackoff := r2.MinBackoff } else r2
  let r4 := if r3.BackoffFactor < 1 then { r3 with BackoffFactor := 2 } else r3
  let r5 := if r4.BackoffJitter < 0 then { r4 with BackoffJitter := 0 } else r4
  if r5.BackoffJitter > 1 then { r5 with BackoffJitter := 1 } else r5

/-- The three ways `retry.Do` can return. -/
inductive DoResult where
  | succeeded
  | exhausted
  | cancelled
  deriving Repr, DecidableEq

/-- The `(bool, error)` pair `Do` returns, the `error` component abstracted to
"is it non-nil" (when non-nil it is always `ctx.Err()`):
`succeeded ↦ (true, nil)`, `exhausted ↦ (false, nil)`,
`cancelled ↦ (false, ctx.Err())`. -/
def DoResult.goPair : DoResult → Bool × Bool
  | .succeeded => (true, false)
  | .exhausted => (false, false)
  | .cancelled => (false, true)

/-- The loop of `retry.Do` (`retry.go` lines 26-56) as a fuel-indexed
recursion.  `cb k` is the result of the `k`-th (0-based) invocation of the
callback; `cancel k` tells whether `ctx.Done()` fires before the timer during
the backoff wait that follows the `k`-th failed attempt.  At entry to the
`k`-th iteration the Go local `attemptCount` equals `k`, so after a failure it
equals `k + 1` and is compared to `MaxNumberOfAttempts`.  `none` means the
fuel ran out with the loop still running. -/
def doLoop (max : Int) (cb cancel : Nat → Bool) : Nat → Nat → Option DoResult
  | 0, _ => none
  | fuel + 1, k =>
    if cb k then some .succeeded
    else if ((k : Int) + 1) = max then some .exhausted
    else if cancel k then some .cancelled
    else doLoop max cb cancel fuel (k + 1)

/-- `retry.Do` (`retry.go` lines 20-57): normalize the policy, then run the
attempt loop from attempt 0. -/
def Retry.Do (r : Retry) (cb cancel : Nat → Bool) (fuel : Nat) : Option DoResult :=
  doLoop r.normalize.MaxNumberOfAttempts cb cancel fuel 0

/-- One update of the `backoff` local of `Do` (`retry.go` lines 37-45): a zero
backoff becomes `MinBackoff`; otherwise multiply by `BackoffFactor` and cap at
`MaxBackoff`. -/
def backoffStep (r : Retry) (b : ℚ) : ℚ :=
  if b = 0 then r.MinBackoff
  else
    let b2 := b * r.BackoffFactor
    if b2 > r.MaxBackoff then r.MaxBackoff else b2

/-- The nominal backoff before the `n`-th retry wait (0-based), obtained by
iterating `backoffStep` from the initial `backoff = 0`. -/
def nominalBackoff (r : Retry) : Nat → ℚ
  | 0 => backoffStep r 0
  | n + 1 => backoffStep r (nominalBackoff r n)

/-- The jitter multiplier `p` of `retry.go` line 47:
`(1 - BackoffJitter) + (2*BackoffJitter) * rand.Float64()`. -/
def jitterFactor (r : Retry) (u : ℚ) : ℚ :=
  (1 - r.BackoffJitter) + (2 * r.BackoffJitter) * u

/-- The duration handed to `time.NewTimer` on `retry.go` line 48. -/
def jitteredWait (r : Retry) (b u : ℚ) : ℚ := b * jitterFactor r u

/-! ### dynconf.go -/

section WatchModel

variable {V P E C : Type}

/-- Observable result of one `w.client.KV().Get` call: a non-nil error with
its cause, a nil kv-pair, or a kv-pair carrying the payload (`kvPair.Value`)
and the version (`kvPair.ModifyIndex`). -/
inductive GetResult (P E : Type) where
  | err (cause : E)
  | notFound
  | found (payload : P) (modifyIndex : Nat)
  deriving Repr, DecidableEq

/-- The three error shapes `populateValue` (and hence `AddWatch`) can surface
(`dynconf.go` lines 78-90): a transport error echoing the key and wrapping the
cause, `ErrKeyNotFound` echoing the key, and an unmarshal error echoing the
key and the raw payload and wrapping the cause. -/
inductive AddWatchError (P E : Type) where
  | kvGetFailed (key : String) (cause : E)
  | keyNotFound (key : String)
  | unmarshalFailed (key : String) (data : P) (cause : E)
  deriving Repr, DecidableEq

/-- The mutable synchronization state of a `Watch`: the atomic `value` slot
and `valueIndex` (`dynconf.go` lines 51-52).  The background loop is its sole
mutator. -/
structure WatchState (V : Type) where
  value : V
  valueIndex : Nat
  deriving Repr, DecidableEq

/-- `Watch.Value` (`dynconf.go` lines 70-72): load the atomic slot. -/
def WatchState.Value (s : WatchState V) : V := s.value

/-- `Watch.populateValue` (`dynconf.go` lines 74-95): one synchronous get,
error checks in source order, then a fresh decode; on success the decoded
value and the reported `ModifyIndex` become the initial state. -/
def populateValue (key : String) (decode : P → Except E V) :
    GetResult P E → Except (AddWatchError P E) (WatchState V)
  | .err cause => .error (.kvGetFailed key cause)
  | .notFound => .error (.keyNotFound key)
  | .found payload idx =>
    match decode payload with
    | .error cause => .error (.unmarshalFailed key payload cause)
    | .ok value => .ok ⟨value, idx⟩

/-- `Watcher.AddWatch` (`dynconf.go` lines 29-43).  The store is modelled as a
function `get` from the context object actually passed to `KV().Get` to its
result.  `populateValue` builds its query options from `w.ctx`, the Watch's
internal context field, which is still nil (`none`) at this point — `add`
only initializes it afterwards — so the `ctx` parameter is never consulted
and exactly one get is issued. -/
def AddWatch (ctx : C) (key : String) (decode : P → Except E V)
    (get : Option C → GetResult P E) : Except (AddWatchError P E) (WatchState V) :=
  populateValue key decode (get none)

/-- Outcome of the retry-driven poll phase of one `keepValueUpToDate`
iteration (`dynconf.go` lines 119-139).  When `retry.Do` returns `(true, nil)`
the closure has stored a non-nil `kvPair`, carried here; when it returns
`(false, nil)` (exhaustion) both failure paths of the closure left `kvPair`
nil; `(false, ctx.Err())` is cancellation. -/
inductive PollResult (P : Type) where
  | succeeded (payload : P) (modifyIndex : Nat)
  | exhausted
  | cancelled
  deriving Repr, DecidableEq

/-- Observable actions of one loop iteration, in program order:
`published v` is `w.setValue(v)`; `outdated v` is `v.OnOutdated()`;
`unmarshalFailed` is the `dynconf_value_unmarshal_failed` log;
`watchRemoved v` is `v.OnWatchRemoved()`. -/
inductive Event (V : Type) where
  | published (newValue : V)
  | outdated (oldValue : V)
  | unmarshalFailed
  | watchRemoved (value : V)
  deriving Repr, DecidableEq

/-- Result of one iteration of the `for` loop of `keepValueUpToDate`:
continue with a new state, return (the only `return` of the loop body), or
dereference a nil `kvPair` (the `(false, nil)` exhaustion case, which the
`err != nil` test does not catch; unreachable with the watch's policy, see
`keepValueUpToDate_exit`). -/
inductive StepOut (V : Type) where
  | next (s : WatchState V) (events : List (Event V))
  | terminated (events : List (Event V))
  | crashed
  deriving Repr, DecidableEq

/-- One iteration of `keepValueUpToDate` (`dynconf.go` lines 112-180) after
the poll phase.  `ho v` / `hr v` tell whether `v` implements
`ValueOutdatedCallback` / `ValueWatchRemovedCallback`.  On a same-index pair
the loop `continue`s; otherwise it decodes into a fresh value, publishing it
and firing `OnOutdated` on success, logging on failure, and in either case
runs the regression guard (lines 175-177) and the unconditional
`w.valueIndex = kvPair.ModifyIndex` (line 179). -/
def loopStep (decode : P → Except E V) (ho hr : V → Bool)
    (s : WatchState V) : PollResult P → StepOut V
  | .cancelled =>
    .terminated (if hr s.value then [.watchRemoved s.value] else [])
  | .exhausted => .crashed
  | .succeeded payload idx =>
    if idx = s.valueIndex then .next s []
    else
      let idx2 := if idx < s.valueIndex then 0 else idx
      match decode payload with
      | .ok newValue =>
        .next ⟨newValue, idx2⟩
          (.published newValue ::
            (if ho s.value then [.outdated s.value] else []))
      | .error _ => .next ⟨s.value, idx2⟩ [.unmarshalFailed]

/-- Result of running the loop against a finite script of poll outcomes:
still running in some state, returned, or crashed, with the events
accumulated in order. -/
inductive RunOut (V : Type) where
  | running (s : WatchState V) (events : List (Event V))
  | terminated (events : List (Event V))
  | crashed (events : List (Event V))
  deriving Repr, DecidableEq

/-- Iterate `loopStep` over a script of poll-phase outcomes, one per
iteration of the `for` loop, accumulating events. -/
def runLoop (decode : P → Except E V) (ho hr : V → Bool) :
    WatchState V → List (PollResult P) → RunOut V
  | s, [] => .running s []
  | s, r :: rs =>
    match loopStep decode ho hr s r with
    | .terminated evs => .terminated evs
    | .crashed => .crashed []
    | .next s' evs =>
      match runLoop decode ho hr s' rs with
      | .running s'' evs' => .running s'' (evs ++ evs')
      | .terminated evs' => .terminated (evs ++ evs')
      | .crashed evs' => .crashed (evs ++ evs')

end WatchModel

/-- The retry policy built at the top of `keepValueUpToDate` (`dynconf.go`
lines 108-110): only `BackoffJitter` is set to 0.5; every other field is the
Go zero value. -/
def watchRetryPolicy : Retry :=
  { MaxNumberOfAttempts := 0, MinBackoff := 0, MaxBackoff := 0,
    BackoffFactor := 0, BackoffJitter := 1 / 2 }

/-- A concrete decoder for witnesses and counterexamples: even payloads
decode to their half, odd payloads fail to unmarshal. -/
def decodeEven : Nat → Except Unit Nat :=
  fun p => if p % 2 = 0 then .ok (p / 2) else .error ()

/-- A value type none of whose values implements the optional callback. -/
def noCapability : Nat → Bool := fun _ => false

/-- A value type all of whose values implement the optional callback. -/
def allCapability : Nat → Bool := fun _ => true


/-! ### Helper lemmas about `retry.normalize` and `doLoop` -/

set_option maxHeartbeats 1600000 in
/-- Closed form of `Retry.normalize`: each field as one conditional. -/
theorem Retry.normalize_closed (r : Retry) :
    r.normalize =
      { MaxNumberOfAttempts := r.MaxNumberOfAttempts
        MinBackoff := if r.MinBackoff < 1 then 100 * millisecond else r.MinBackoff
        MaxBackoff :=
          (if (if r.MaxBackoff < 1 then 300 * second else r.MaxBackoff) <
              (if r.MinBackoff < 1 then 100 * millisecond else r.MinBackoff) then
            (if r.MinBackoff < 1 then 100 * millisecond else r.MinBackoff)
          else (if r.MaxBackoff < 1 then 300 * second else r.MaxBackoff))
        BackoffFactor := if r.BackoffFactor < 1 then 2 else r.BackoffFactor
        BackoffJitter :=
          if r.BackoffJitter < 0 then 0
          else if r.BackoffJitter > 1 then 1 else r.BackoffJitter } := by
  unfold Retry.normalize
  dsimp only
  split_ifs <;> simp_all <;> linarith

/-- The fields of a normalized policy satisfy the documented bounds. -/
theorem Retry.normalize_bounds (r : Retry) :
    1 ≤ r.normalize.MinBackoff ∧ r.normalize.MinBackoff ≤ r.normalize.MaxBackoff ∧
      1 ≤ r.normalize.BackoffFactor ∧ 0 ≤ r.normalize.BackoffJitter ∧
      r.normalize.BackoffJitter ≤ 1 := by
  rw [Retry.normalize_closed]
  dsimp only
  simp only [millisecond, second] at *
  refine ⟨?_, ?_, ?_, ?_, ?_⟩ <;> split_ifs <;> push_neg at * <;> linarith

/-- `normalize` never touches `MaxNumberOfAttempts`. -/
theorem Retry.normalize_attempts (r : Retry) :
    r.normalize.MaxNumberOfAttempts = r.MaxNumberOfAttempts := by
  rw [Retry.normalize_closed]

/-- A policy whose fields already satisfy the bounds is a fixed point of
`normalize`. -/
theorem Retry.normalize_fixed (s : Retry) (hmn : 1 ≤ s.MinBackoff)
    (hmx : s.MinBackoff ≤ s.MaxBackoff) (hbf : 1 ≤ s.BackoffFactor)
    (hj0 : 0 ≤ s.BackoffJitter) (hj1 : s.BackoffJitter ≤ 1) :
    s.normalize = s := by
  rw [Retry.normalize_closed]
  rcases s with ⟨a, mn, mx, bf, bj⟩
  dsimp only at *
  split_ifs <;> first | rfl | (exfalso; linarith)

/-- With a non-positive `MaxNumberOfAttempts`, the attempt loop can never
report exhaustion: `attemptCount` is always at least 1 when compared. -/
theorem doLoop_nonpos_ne_exhausted (max : Int) (hm : max ≤ 0) (cb cancel : Nat → Bool) :
    ∀ fuel k, doLoop max cb cancel fuel k ≠ some .exhausted := by
  intro fuel
  induction fuel with
  | zero => intro k h; simp [doLoop] at h
  | succ n ih =>
    intro k
    simp only [doLoop]
    split_ifs with h1 h2 h3
    · simp
    · exfalso; omega
    · simp
    · exact ih (k + 1)

/-- The first backoff update turns the initial `0` into `MinBackoff`. -/
theorem backoffStep_zero (r : Retry) : backoffStep r 0 = r.MinBackoff := by
  simp [backoffStep]

/-- Every later backoff update is multiply-then-cap. -/
theorem backoffStep_of_ne_zero (r : Retry) (b : ℚ) (hb : b ≠ 0) :
    backoffStep r b = min (b * r.BackoffFactor) r.MaxBackoff := by
  unfold backoffStep
  rw [if_neg hb]
  dsimp only
  rw [min_def]
  split_ifs <;> first | rfl | linarith

/-- Under the normalized bounds, every nominal backoff is at least 1 ns, so
it never falls back into the `backoff == 0` branch. -/
theorem nominalBackoff_one_le (r : Retry) (hmn : 1 ≤ r.MinBackoff)
    (hmx : r.MinBackoff ≤ r.MaxBackoff) (hbf : 1 ≤ r.BackoffFactor) :
    ∀ n, 1 ≤ nominalBackoff r n := by
  intro n
  induction n with
  | zero => rw [nominalBackoff, backoffStep_zero]; exact hmn
  | succ m ih =>
    rw [nominalBackoff, backoffStep_of_ne_zero r _ (by linarith)]
    rw [le_min_iff]
    constructor
    · nlinarith
    · linarith

/-- For a jitter fraction in `[0,1]` and a uniform sample in `[0,1)`, the
multiplier `p` stays in the symmetric band. -/
theorem jitterFactor_bounds (r : Retry) (u : ℚ) (hu0 : 0 ≤ u) (hu1 : u < 1)
    (hj0 : 0 ≤ r.BackoffJitter) :
    1 - r.BackoffJitter ≤ jitterFactor r u ∧ jitterFactor r u ≤ 1 + r.BackoffJitter := by
  unfold jitterFactor
  constructor
  · nlinarith [mul_nonneg hj0 hu0]
  · nlinarith [mul_nonneg hj0 (by linarith : (0:ℚ) ≤ 1 - u)]


/-! ### Claim theorems for retry.go -/

/-- C9: `normalize` defaults `MinBackoff` to 100ms and `MaxBackoff` to 300s
when unset (below 1 ns), raises `MaxBackoff` to `MinBackoff` when smaller,
defaults `BackoffFactor` to 2.0 when below 1.0, and clamps `BackoffJitter`
into [0,1]; it leaves `MaxNumberOfAttempts` alone, and running it a second
time (what the `sync.Once` guard prevents) would leave the policy
unchanged. -/
theorem retry_normalize_spec (r : Retry) :
    r.normalize =
      { MaxNumberOfAttempts := r.MaxNumberOfAttempts
        MinBackoff := if r.MinBackoff < 1 then 100 * millisecond else r.MinBackoff
        MaxBackoff :=
          (if (if r.MaxBackoff < 1 then 300 * second else r.MaxBackoff) <
              (if r.MinBackoff < 1 then 100 * millisecond else r.MinBackoff) then
            (if r.MinBackoff < 1 then 100 * millisecond else r.MinBackoff)
          else (if r.MaxBackoff < 1 then 300 * second else r.MaxBackoff))
        BackoffFactor := if r.BackoffFactor < 1 then 2 else r.BackoffFactor
        BackoffJitter :=
          if r.BackoffJitter < 0 then 0
          else if r.BackoffJitter > 1 then 1 else r.BackoffJitter } ∧
    (0 ≤ r.normalize.BackoffJitter ∧ r.normalize.BackoffJitter ≤ 1) ∧
    r.normalize.MinBackoff ≤ r.normalize.MaxBackoff ∧
    r.normalize.normalize = r.normalize := by
  obtain ⟨h1, h2, h3, h4, h5⟩ := Retry.normalize_bounds r
  exact ⟨Retry.normalize_closed r, ⟨h4, h5⟩, h2,
    Retry.normalize_fixed _ h1 h2 h3 h4 h5⟩

/-- C3: `retry.Do` returns `(true, nil)` as soon as the callback returns
true (no wait happens first); `(false, nil)` when, right after a failed
attempt, the attempt count `k + 1` equals the configured maximum (which is
then necessarily positive); `(false, ctx.Err())` when the context is
cancelled during the following backoff wait (checked after the exhaustion
test); and with the unset maximum 0 it can never report exhaustion, so
attempts are unlimited. -/
theorem retry_Do_tristate (r : Retry) (cb cancel : Nat → Bool) (fuel k : Nat) :
    (Retry.Do r cb cancel fuel =
      doLoop r.normalize.MaxNumberOfAttempts cb cancel fuel 0) ∧
    (cb k = true →
      doLoop r.normalize.MaxNumberOfAttempts cb cancel (fuel + 1) k =
        some .succeeded) ∧
    (cb k = false → ((k : Int) + 1) = r.normalize.MaxNumberOfAttempts →
      doLoop r.normalize.MaxNumberOfAttempts cb cancel (fuel + 1) k =
        some .exhausted) ∧
    (cb k = false → ((k : Int) + 1) ≠ r.normalize.MaxNumberOfAttempts →
      cancel k = true →
      doLoop r.normalize.MaxNumberOfAttempts cb cancel (fuel + 1) k =
        some .cancelled) ∧
    (r.MaxNumberOfAttempts = 0 →
      ∀ f j, doLoop r.normalize.MaxNumberOfAttempts cb cancel f j ≠
        some .exhausted) ∧
    DoResult.goPair .succeeded = (true, false) ∧
    DoResult.goPair .exhausted = (false, false) ∧
    DoResult.goPair .cancelled = (false, true) := by
  refine ⟨rfl, ?_, ?_, ?_, ?_, rfl, rfl, rfl⟩
  · intro h; simp [doLoop, h]
  · intro h1 h2; simp [doLoop, h1, h2]
  · intro h1 h2 h3; simp [doLoop, h1, h2, h3]
  · intro h0
    exact doLoop_nonpos_ne_exhausted _
      (by rw [Retry.normalize_attempts, h0]) cb cancel

/-- C8: for a normalized policy the nominal backoff before the first retry
is `MinBackoff`, each later one is the previous times `BackoffFactor` capped
at `MaxBackoff`, and the actual wait is the nominal backoff times
`(1 - jitter) + 2*jitter*u`, a factor lying in `[1 - jitter, 1 + jitter]`
for a uniform sample `u ∈ [0,1)`; jitter 0 leaves the wait exactly the
nominal backoff. -/
theorem retry_backoff_schedule (r : Retry) (n : Nat) (u : ℚ)
    (hu0 : 0 ≤ u) (hu1 : u < 1) :
    nominalBackoff r.normalize 0 = r.normalize.MinBackoff ∧
    nominalBackoff r.normalize (n + 1) =
      min (nominalBackoff r.normalize n * r.normalize.BackoffFactor)
        r.normalize.MaxBackoff ∧
    jitteredWait r.normalize (nominalBackoff r.normalize n) u =
      nominalBackoff r.normalize n * jitterFactor r.normalize u ∧
    1 - r.normalize.BackoffJitter ≤ jitterFactor r.normalize u ∧
    jitterFactor r.normalize u ≤ 1 + r.normalize.BackoffJitter ∧
    (r.normalize.BackoffJitter = 0 →
      jitteredWait r.normalize (nominalBackoff r.normalize n) u =
        nominalBackoff r.normalize n) := by
  obtain ⟨h1, h2, h3, h4, h5⟩ := Retry.normalize_bounds r
  have hpos := nominalBackoff_one_le r.normalize h1 h2 h3
  obtain ⟨hl, hh⟩ := jitterFactor_bounds r.normalize u hu0 hu1 h4
  refine ⟨?_, ?_, rfl, hl, hh, ?_⟩
  · rw [nominalBackoff, backoffStep_zero]
  · rw [nominalBackoff, backoffStep_of_ne_zero _ _ (by have := hpos n; linarith)]
  · intro hj
    unfold jitteredWait jitterFactor
    rw [hj]
    ring

/-- Witness for C8 at the watch policy, sample 1/2, first backoff. -/
theorem retry_backoff_schedule_witness :
    nominalBackoff watchRetryPolicy.normalize 0 =
      watchRetryPolicy.normalize.MinBackoff :=
  (retry_backoff_schedule watchRetryPolicy 0 (1 / 2)
    (by norm_num) (by norm_num)).1


/-! ### Helper lemmas about the watch loop -/

/-- A successful poll never ends the loop body: every branch after the
`err != nil` test falls through to the bottom of the `for` body. -/
theorem loopStep_succeeded_next {V P E : Type} (decode : P → Except E V)
    (ho hr : V → Bool) (s : WatchState V) (p : P) (i : Nat) :
    ∃ s2 evs, loopStep decode ho hr s (.succeeded p i) = .next s2 evs := by
  by_cases hidx : i = s.valueIndex
  · exact ⟨s, [], by simp [loopStep, hidx]⟩
  · rcases hdec : decode p with e | v
    · exact ⟨⟨s.value, if i < s.valueIndex then 0 else i⟩, [.unmarshalFailed],
        by simp [loopStep, hidx, hdec]⟩
    · exact ⟨⟨v, if i < s.valueIndex then 0 else i⟩,
        .published v :: (if ho s.value then [.outdated s.value] else []),
        by simp [loopStep, hidx, hdec]⟩

/-- A script that never reports exhaustion never crashes the loop
(the nil-kvPair dereference is unreachable). -/
theorem runLoop_no_crash {V P E : Type} (decode : P → Except E V)
    (ho hr : V → Bool) :
    ∀ (script : List (PollResult P)) (s : WatchState V), .exhausted ∉ script →
      ∀ evs, runLoop decode ho hr s script ≠ .crashed evs := by
  intro script
  induction script with
  | nil => intro s _ evs h; simp [runLoop] at h
  | cons r rs ih =>
    intro s hmem evs h
    have hr2 : r ≠ .exhausted := fun he => hmem (he ▸ List.mem_cons_self r rs)
    have hrs : PollResult.exhausted ∉ rs := fun hin => hmem (List.mem_cons_of_mem r hin)
    cases r with
    | cancelled => simp [runLoop, loopStep] at h
    | exhausted => exact hr2 rfl
    | succeeded p i =>
      obtain ⟨s2, evs2, hstep⟩ := loopStep_succeeded_next decode ho hr s p i
      cases hx : runLoop decode ho hr s2 rs with
      | running s3 evs3 => simp [runLoop, hstep, hx] at h
      | terminated evs3 => simp [runLoop, hstep, hx] at h
      | crashed evs3 => exact ih s2 hrs evs3 hx


/-! ### Claim theorems for dynconf.go -/

/-- C1 counterexample: with value 7 held at index 3, a payload (9) that
fails to decode but carries ModifyIndex 5 leaves the published value at 7,
yet the stored version index becomes 5, not 3: line 179 of dynconf.go runs
on the decode-failure path too, so the next poll is issued with the new
index, contradicting the claim that a decode failure never advances
`valueIndex`. -/
theorem decode_failure_index_counterexample :
    loopStep decodeEven noCapability noCapability ⟨7, 3⟩ (.succeeded 9 5) =
      .next ⟨7, 5⟩ [.unmarshalFailed] ∧ (5 : Nat) ≠ 3 := by
  constructor
  · rfl
  · decide

/-- C1 as amended: in an iteration whose payload fails to decode (at an
index different from the held one), the published current value is unchanged
and the only observable action is the failure log — but the stored version
index is set to the payload's ModifyIndex (normalized to 0 when it
regressed), and the next poll uses that new index. -/
theorem decode_failure_keeps_value_advances_index {V P E : Type}
    (decode : P → Except E V) (ho hr : V → Bool) (s : WatchState V)
    (p : P) (idx : Nat) (e : E)
    (hdec : decode p = .error e) (hne : idx ≠ s.valueIndex) :
    loopStep decode ho hr s (.succeeded p idx) =
      .next ⟨s.value, if idx < s.valueIndex then 0 else idx⟩
        [.unmarshalFailed] := by
  simp [loopStep, hne, hdec]

/-- Witness for the amended C1 at a concrete decoder and state. -/
theorem decode_failure_keeps_value_advances_index_witness :
    loopStep decodeEven noCapability noCapability ⟨7, 3⟩ (.succeeded 9 5) =
      .next ⟨7, if 5 < 3 then 0 else 5⟩ [.unmarshalFailed] :=
  decode_failure_keeps_value_advances_index decodeEven noCapability
    noCapability ⟨7, 3⟩ 9 5 () rfl (by decide)

/-- C2: the watch's retry policy (MaxNumberOfAttempts left at the zero
value) can never report exhaustion; for the reachable poll outcomes the loop
body returns exactly when the executor reports cancellation (the only
`return` in the loop); the terminal iteration invokes `OnWatchRemoved`
exactly once when the current value implements it and never otherwise; and
over any script of reachable poll outcomes the whole loop ends precisely
when some iteration's executor reports cancellation. -/
theorem keepValueUpToDate_exit {V P E : Type} (decode : P → Except E V)
    (ho hr : V → Bool) :
    (∀ (cb cancel : Nat → Bool) (fuel k : Nat),
      doLoop watchRetryPolicy.normalize.MaxNumberOfAttempts cb cancel fuel k ≠
        some .exhausted) ∧
    (∀ (s : WatchState V) (r : PollResult P), r ≠ .exhausted →
      ((∃ evs, loopStep decode ho hr s r = .terminated evs) ↔
        r = .cancelled)) ∧
    (∀ s : WatchState V, loopStep decode ho hr s .cancelled =
      .terminated (if hr s.value then [.watchRemoved s.value] else [])) ∧
    (∀ (s : WatchState V) (script : List (PollResult P)),
      .exhausted ∉ script →
      ((∃ evs, runLoop decode ho hr s script = .terminated evs) ↔
        .cancelled ∈ script)) := by
  have hmax : watchRetryPolicy.normalize.MaxNumberOfAttempts ≤ 0 := by
    rw [Retry.normalize_attempts]
    norm_num [watchRetryPolicy]
  refine ⟨?_, ?_, fun s => rfl, ?_⟩
  · intro cb cancel fuel k
    exact doLoop_nonpos_ne_exhausted _ hmax cb cancel fuel k
  · intro s r hrne
    cases r with
    | succeeded p i =>
      obtain ⟨s2, evs2, hstep⟩ := loopStep_succeeded_next decode ho hr s p i
      constructor
      · rintro ⟨evs, h⟩
        rw [hstep] at h
        exact absurd h (by simp)
      · intro h
        exact absurd h (by simp)
    | exhausted => exact absurd rfl hrne
    | cancelled => exact ⟨fun _ => rfl, fun _ => ⟨_, rfl⟩⟩
  · intro s script
    induction script generalizing s with
    | nil =>
      intro _
      simp [runLoop]
    | cons r rs ih =>
      intro hmem
      have hrne : r ≠ .exhausted := fun he => hmem (he ▸ List.mem_cons_self r rs)
      have hrs : PollResult.exhausted ∉ rs :=
        fun hin => hmem (List.mem_cons_of_mem r hin)
      cases r with
      | cancelled =>
        constructor
        · intro _
          exact List.mem_cons_self _ _
        · intro _
          exact ⟨_, rfl⟩
      | exhausted => exact absurd rfl hrne
      | succeeded p i =>
        obtain ⟨s2, evs2, hstep⟩ := loopStep_succeeded_next decode ho hr s p i
        have hnc : PollResult.cancelled ∈ (PollResult.succeeded p i :: rs) ↔
            PollResult.cancelled ∈ rs := by simp
        rw [hnc]
        rw [← ih s2 hrs]
        cases hx : runLoop decode ho hr s2 rs with
        | running s3 evs3 =>
          constructor
          · rintro ⟨evs, h⟩
            simp [runLoop, hstep, hx] at h
          · rintro ⟨evs, h⟩
            exact absurd h (by simp)
        | terminated evs3 =>
          constructor
          · intro _
            exact ⟨evs3, rfl⟩
          · intro _
            exact ⟨evs2 ++ evs3, by simp [runLoop, hstep, hx]⟩
        | crashed evs3 => exact absurd hx (runLoop_no_crash decode ho hr rs s2 hrs evs3)


/-- C4: `AddWatch` fails exactly when the single synchronous get fails
(wrapping the cause and echoing the key), reports a nil kv-pair
(`ErrKeyNotFound` echoing the key), or the fresh decode fails (wrapping the
cause and echoing the key and raw payload); and its outcome is a function of
that one get result alone — two stores agreeing on the single issued query
give identical outcomes, so no retry can occur inside the call. -/
theorem AddWatch_error_cases {V P E C : Type} (ctx : C) (key : String)
    (decode : P → Except E V) :
    (∀ e : E, populateValue key decode (.err e) =
      .error (.kvGetFailed key e)) ∧
    (populateValue key decode (.notFound : GetResult P E) =
      .error (.keyNotFound key)) ∧
    (∀ (p : P) (i : Nat) (e : E), decode p = .error e →
      populateValue key decode (.found p i) =
        .error (.unmarshalFailed key p e)) ∧
    (∀ g : GetResult P E,
      (∃ err, populateValue key decode g = .error err) ↔
        ((∃ e, g = .err e) ∨ g = .notFound ∨
          ∃ p i e, g = .found p i ∧ decode p = .error e)) ∧
    (∀ get get2 : Option C → GetResult P E, get none = get2 none →
      AddWatch ctx key decode get = AddWatch ctx key decode get2) := by
  refine ⟨fun e => rfl, rfl, ?_, ?_, ?_⟩
  · intro p i e hdec
    simp [populateValue, hdec]
  · intro g
    cases g with
    | err e => simp [populateValue]
    | notFound => simp [populateValue]
    | found p i =>
      rcases hdec : decode p with e | v <;> simp [populateValue, hdec]
  · intro get get2 h
    unfold AddWatch
    rw [h]

/-- C5: when a payload at a different index decodes, the new value is
written to the slot and the iteration's events are the publish followed by
exactly one `OnOutdated` on the previous value when it implements the
capability (and none otherwise); a payload that fails to decode produces
only the failure log, never an `OnOutdated`. -/
theorem update_publishes_then_notifies {V P E : Type}
    (decode : P → Except E V) (ho hr : V → Bool) (s : WatchState V)
    (p : P) (idx : Nat) (hne : idx ≠ s.valueIndex) :
    (∀ v, decode p = .ok v →
      loopStep decode ho hr s (.succeeded p idx) =
        .next ⟨v, if idx < s.valueIndex then 0 else idx⟩
          (.published v ::
            (if ho s.value then [.outdated s.value] else []))) ∧
    (∀ e, decode p = .error e →
      loopStep decode ho hr s (.succeeded p idx) =
        .next ⟨s.value, if idx < s.valueIndex then 0 else idx⟩
          [.unmarshalFailed]) := by
  constructor <;> intro x hx <;> simp [loopStep, hne, hx]

/-- Witness for C5: value 7 at index 3, payload 8 decodes to 4 at index 5;
the publish event precedes the single outdated notification. -/
theorem update_publishes_then_notifies_witness :
    loopStep decodeEven allCapability noCapability ⟨7, 3⟩ (.succeeded 8 5) =
      .next ⟨4, if 5 < 3 then 0 else 5⟩
        (.published 4 :: (if allCapability 7 then [.outdated 7] else [])) :=
  (update_publishes_then_notifies decodeEven allCapability noCapability
    ⟨7, 3⟩ 8 5 (by decide)).1 4 rfl

/-- C6: when the single synchronous get finds the key and the payload
decodes, `AddWatch` returns the state whose `Value()` is the decoded value
and whose `valueIndex` is the reported ModifyIndex — the state the
background loop then starts from. -/
theorem AddWatch_initial_state {V P E C : Type} (ctx : C) (key : String)
    (decode : P → Except E V) (get : Option C → GetResult P E)
    (p : P) (i : Nat) (v : V)
    (hget : get none = .found p i) (hdec : decode p = .ok v) :
    AddWatch ctx key decode get = .ok ⟨v, i⟩ ∧
    (WatchState.mk v i).Value = v ∧ (WatchState.mk v i).valueIndex = i := by
  refine ⟨?_, rfl, rfl⟩
  unfold AddWatch
  rw [hget]
  simp [populateValue, hdec]

/-- Witness for C6: payload 8 at index 1 decodes to 4. -/
theorem AddWatch_initial_state_witness :
    AddWatch () "hello2" decodeEven (fun _ => .found 8 1) = .ok ⟨4, 1⟩ :=
  (AddWatch_initial_state () "hello2" decodeEven (fun _ => .found 8 1)
    8 1 4 rfl rfl).1

/-- C7: whenever the store reports a version strictly below the held one,
the iteration ends with the tracked index normalized to the sentinel 0 (on
both the decode-success and decode-failure paths), so the next poll waits
from no baseline. -/
theorem version_regression_guard {V P E : Type} (decode : P → Except E V)
    (ho hr : V → Bool) (s : WatchState V) (p : P) (idx : Nat)
    (hlt : idx < s.valueIndex) :
    ∃ s2 evs, loopStep decode ho hr s (.succeeded p idx) = .next s2 evs ∧
      s2.valueIndex = 0 := by
  have hne : idx ≠ s.valueIndex := Nat.ne_of_lt hlt
  rcases hdec : decode p with e | v
  · exact ⟨⟨s.value, 0⟩, [.unmarshalFailed],
      by simp [loopStep, hne, hdec, hlt], rfl⟩
  · exact ⟨⟨v, 0⟩,
      .published v :: (if ho s.value then [.outdated s.value] else []),
      by simp [loopStep, hne, hdec, hlt], rfl⟩

/-- Witness for C7: index regresses from 3 to 1. -/
theorem version_regression_guard_witness :
    ∃ s2 evs, loopStep decodeEven noCapability noCapability ⟨7, 3⟩
      (.succeeded 9 1) = .next s2 evs ∧ s2.valueIndex = 0 :=
  version_regression_guard decodeEven noCapability noCapability
    ⟨7, 3⟩ 9 1 (by decide)

/-- C10: `AddWatch` is insensitive to its `ctx` argument — any two caller
contexts (cancelled or not) yield the same outcome — because the one
synchronous fetch is issued with the Watch's internal context field, still
uninitialized (`none`) at that point. -/
theorem AddWatch_ctx_independent {V P E C : Type} (key : String)
    (decode : P → Except E V) (get : Option C → GetResult P E)
    (c1 c2 : C) :
    AddWatch c1 key decode get = AddWatch c2 key decode get ∧
    AddWatch c1 key decode get = populateValue key decode (get none) :=
  ⟨rfl, rfl⟩

end Dynconf
